import Mathlib

/-!
Shallow embedding of `src/tools/db/import_stock_workbook.py` (workbook
parsing and SQL command building) and proofs about its specification.

Conventions of the embedding:
* Python `None` / text / numeric / boolean / date cell values are the
  inductive `Cell`; Python floats are embedded as rationals (the workbook
  numerals in play are exact decimals).
* Python regex searches (`NUMBER_PATTERN`, `CT_PATTERN`, `PCS_PATTERN`,
  `SLASH_NUMBER_PATTERN`) are embedded as explicit leftmost scans; for
  these patterns greedy matching never backtracks (after a maximal digit
  run the continuation can never start with a digit), so the scan is
  deterministic.
* `str.strip` / regex `\s` use the ASCII whitespace repertoire.
* `datetime.strptime` against the six declared layouts is embedded by
  splitting on the layout separator, because every layout is
  digit-field/separator/digit-field/separator/digit-field and a full
  match forces each maximal digit run to be consumed by one field.
-/

namespace StockImport

/-- Whitespace stripped by Python `str.strip` and matched by `\s`
(ASCII repertoire: space, tab, newline, carriage return, vertical tab,
form feed). -/
def isPySpace (c : Char) : Bool :=
  c == ' ' || c == '\t' || c == '\n' || c == '\r' || c == '\x0b' || c == '\x0c'

/-- Left strip: drop leading whitespace. -/
def stripLeft (cs : List Char) : List Char := cs.dropWhile isPySpace

/-- Right strip: drop trailing whitespace. -/
def stripRight (cs : List Char) : List Char := (cs.reverse.dropWhile isPySpace).reverse

/-- Python `str.strip()` on the character list. -/
def pyStripList (cs : List Char) : List Char := stripRight (stripLeft cs)

/-- Python `str.strip()`. -/
def pyStrip (s : String) : String := ⟨pyStripList s.data⟩

/-- Python `str.lower()` on one character (ASCII letters; the Thai labels
in the sheets have no case). -/
def lowerChar (c : Char) : Char :=
  if 'A' ≤ c ∧ c ≤ 'Z' then Char.ofNat (c.toNat + 32) else c

/-- Python `str.lower()`. -/
def pyLower (s : String) : String := ⟨s.data.map lowerChar⟩

/-- Value of a digit run, most significant first. -/
def digitsToNat (ds : List Char) : ℕ :=
  ds.foldl (fun n c => 10 * n + (c.toNat - 48)) 0

/-- Python `text.replace("..", ".")`: non-overlapping replacement, left to
right. -/
def replaceDDotList : List Char → List Char
  | '.' :: '.' :: rest => '.' :: replaceDDotList rest
  | c :: rest => c :: replaceDDotList rest
  | [] => []

/-- Python `text.replace("..", ".")` on strings. -/
def replaceDDot (s : String) : String := ⟨replaceDDotList s.data⟩

/-- Substring containment, Python `needle in hay`. -/
def containsSub (hay needle : List Char) : Bool :=
  match hay with
  | [] => needle.isEmpty
  | _ :: t => needle.isPrefixOf hay || containsSub t needle

/-- Leftmost regex search: try the matcher at every start position, left
to right, as `re.search` does. -/
def scanWith (f : List Char → Option α) : List Char → Option α
  | [] => f []
  | c :: t =>
    match f (c :: t) with
    | some v => some v
    | Option.none => scanWith f t

/-- Comma groups `(?:,\d{3})*` of `NUMBER_PATTERN`, greedily: each
iteration consumes a comma and exactly three digits. Returns the digits
with the commas removed and the rest of the input. -/
def takeCommaGroups : List Char → List Char × List Char
  | ',' :: a :: b :: c :: rest =>
    if a.isDigit && b.isDigit && c.isDigit then
      let p := takeCommaGroups rest
      (a :: b :: c :: p.1, p.2)
    else ([], ',' :: a :: b :: c :: rest)
  | cs => ([], cs)

/-- Match `NUMBER_PATTERN = -?\d+(?:,\d{3})*(?:\.\d+)?` at the start of
the input and return the value of the match with grouping commas removed,
as `float(match.group(0).replace(",", ""))` does. -/
def matchNumberAt (cs : List Char) : Option ℚ :=
  let p : Bool × List Char :=
    match cs with
    | '-' :: rest => (true, rest)
    | _ => (false, cs)
  let ds := p.2.takeWhile Char.isDigit
  if ds.isEmpty then Option.none
  else
    let rest1 := p.2.drop ds.length
    let g := takeCommaGroups rest1
    let intDigits := ds ++ g.1
    let frac : ℕ × ℕ :=
      match g.2 with
      | '.' :: r =>
        let fs := r.takeWhile Char.isDigit
        if fs.isEmpty then (0, 1) else (digitsToNat fs, 10 ^ fs.length)
      | _ => (0, 1)
    let mag : ℚ := mkRat (digitsToNat intDigits * frac.2 + frac.1) frac.2
    some (if p.1 then -mag else mag)

/-- `NUMBER_PATTERN.search(text)` followed by the float conversion: the
first (leftmost) match wins. -/
def numberSearch (cs : List Char) : Option ℚ := scanWith matchNumberAt cs

/-- Proleptic Gregorian calendar date, as Python `datetime.date`. -/
structure PyDate where
  year : ℕ
  month : ℕ
  day : ℕ
deriving DecidableEq, Repr

/-- Python `calendar` leap year rule. -/
def isLeapYear (y : ℕ) : Bool :=
  (y % 4 == 0 && y % 100 != 0) || y % 400 == 0

/-- Days in a month of a given year. -/
def daysInMonth (y m : ℕ) : ℕ :=
  if m = 2 then (if isLeapYear y then 29 else 28)
  else if m = 4 ∨ m = 6 ∨ m = 9 ∨ m = 11 then 30
  else 31

/-- `datetime.date(y, m, d)`: `some` exactly when the constructor does not
raise. -/
def mkValidDate (y m d : ℕ) : Option PyDate :=
  if 1 ≤ y ∧ y ≤ 9999 ∧ 1 ≤ m ∧ m ≤ 12 ∧ 1 ≤ d ∧ d ≤ daysInMonth y m then
    some ⟨y, m, d⟩
  else Option.none

/-- Left pad with a character to a length. -/
def padLeft (s : String) (c : Char) (n : ℕ) : String :=
  ⟨List.replicate (n - s.length) c⟩ ++ s

/-- Python `date.isoformat()`. -/
def isoOfDate (d : PyDate) : String :=
  padLeft (toString d.year) '0' 4 ++ "-" ++ padLeft (toString d.month) '0' 2
    ++ "-" ++ padLeft (toString d.day) '0' 2

/-- A field of one of the six `strptime` layouts: `%d`, `%m`, `%y`, `%Y`. -/
inductive DateField where
  | day
  | month
  | year2
  | year4
deriving DecidableEq, Repr

/-- One `strptime` field applied to one maximal digit run (a component of
the split). `_strptime` compiles `%d` to `3[01]|[12]\d|0[1-9]|[1-9]`,
`%m` to `1[0-2]|0[1-9]|[1-9]`, `%y` to `\d\d` and `%Y` to `\d\d\d\d`;
since the component is delimited by the separator or the end of the
input, the field must consume it whole. `%y` maps 0-68 to 2000+ and
69-99 to 1900+. -/
def fieldValue (f : DateField) (ds : List Char) : Option ℕ :=
  if ds.isEmpty ∨ ¬ ds.all Char.isDigit then Option.none
  else
    let v := digitsToNat ds
    match f with
    | .day => if (ds.length = 1 ∨ ds.length = 2) ∧ 1 ≤ v ∧ v ≤ 31 then some v else Option.none
    | .month => if (ds.length = 1 ∨ ds.length = 2) ∧ 1 ≤ v ∧ v ≤ 12 then some v else Option.none
    | .year2 => if ds.length = 2 then some (if v ≤ 68 then 2000 + v else 1900 + v) else Option.none
    | .year4 => if ds.length = 4 then some v else Option.none

/-- Split a character list on one separator character (parts may be
empty, as in Python `re`'s view of consecutive separators). -/
def splitOnChar (sep : Char) : List Char → List (List Char)
  | [] => [[]]
  | c :: t =>
    let r := splitOnChar sep t
    if c = sep then [] :: r
    else
      match r with
      | h :: t' => (c :: h) :: t'
      | [] => [[c]]

/-- Accumulator for assembling the three parsed fields of a layout. -/
structure DMY where
  day : ℕ
  month : ℕ
  year : ℕ
deriving DecidableEq, Repr

/-- Record one parsed field value under its role. -/
def assignField (f : DateField) (v : ℕ) (acc : DMY) : DMY :=
  match f with
  | .day => { acc with day := v }
  | .month => { acc with month := v }
  | .year2 => { acc with year := v }
  | .year4 => { acc with year := v }

/-- `datetime.strptime(text, fmt).date()` for one of the six layouts
`F1 sep F2 sep F3`: the text must decompose as exactly three components
around the separator, each accepted by its field, and the resulting
calendar date must be constructible. -/
def tryFormat (sep : Char) (f1 f2 f3 : DateField) (cs : List Char) : Option PyDate :=
  match splitOnChar sep cs with
  | [a, b, c] =>
    match fieldValue f1 a, fieldValue f2 b, fieldValue f3 c with
    | some v1, some v2, some v3 =>
      let r := assignField f3 v3 (assignField f2 v2 (assignField f1 v1 ⟨0, 0, 0⟩))
      mkValidDate r.year r.month r.day
    | _, _, _ => Option.none
  | _ => Option.none

/-- The six layouts of `parse_date`, in declaration order:
`%d/%m/%y`, `%d/%m/%Y`, `%Y-%m-%d`, `%d-%m-%Y`, `%m/%d/%Y`, `%m/%d/%y`. -/
def dateFormats : List (Char × DateField × DateField × DateField) :=
  [ ('/', DateField.day, DateField.month, DateField.year2),
    ('/', DateField.day, DateField.month, DateField.year4),
    ('-', DateField.year4, DateField.month, DateField.day),
    ('-', DateField.day, DateField.month, DateField.year4),
    ('/', DateField.month, DateField.day, DateField.year4),
    ('/', DateField.month, DateField.day, DateField.year2) ]

/-- The format loop of `parse_date`: first successful layout wins. -/
def parseDateText (t : String) : Option PyDate :=
  dateFormats.foldl (fun acc fmt => acc <|> tryFormat fmt.1 fmt.2.1 fmt.2.2.1 fmt.2.2.2 t.data)
    Option.none

/-- A raw spreadsheet cell value as `openpyxl` hands it to the parser:
Python `None`, text, an int, a float (embedded as an exact rational), a
bool, or a date (`datetime`/`date` cells both carry a calendar date here,
since the code immediately projects a `datetime` to its date). -/
inductive Cell where
  | null
  | str (s : String)
  | int (z : ℤ)
  | float (q : ℚ)
  | bool (b : Bool)
  | date (d : PyDate)
deriving DecidableEq, Repr

/-- Decimal rendering of a rational whose denominator divides a power of
ten, used for Python `str()` on numeric cells (Python renders a float as
its shortest round-tripping decimal; the workbook rationals in play are
exact decimals, which render identically). -/
def decimalOfRat (q : ℚ) : String :=
  let sign := if q < 0 then "-" else ""
  let a := q.num.natAbs
  match (List.range 28).find? (fun k => 10 ^ k % q.den == 0) with
  | some 0 => sign ++ toString a ++ ".0"
  | some k =>
    let scaled := a * (10 ^ k / q.den)
    sign ++ toString (scaled / 10 ^ k) ++ "." ++ padLeft (toString (scaled % 10 ^ k)) '0' k
  | Option.none => sign ++ toString a ++ "/" ++ toString q.den

/-- Python `str(value)` on a cell value. -/
def cellStr : Cell → String
  | .null => "None"
  | .str s => s
  | .int z => toString z
  | .float q => decimalOfRat q
  | .bool b => if b then "True" else "False"
  | .date d => isoOfDate d

/-- `normalize_text` (import_stock_workbook.py lines 85-91). -/
def normalize_text (value : Cell) : Option String :=
  match value with
  | .null => Option.none
  | v =>
    let text := pyStrip (cellStr v)
    if text = "" ∨ text = "-" then Option.none else some text

/-- `parse_float` (lines 94-114). The trailing `try float(...)` never
raises for a `NUMBER_PATTERN` match with commas removed, so the match
value is returned directly. -/
def parse_float (value : Cell) : Option ℚ :=
  match value with
  | .null => Option.none
  | .bool _ => Option.none
  | .int z => some (z : ℚ)
  | .float q => some q
  | v =>
    let text := pyStrip (cellStr v)
    if text = "" ∨ text = "-" ∨ text = "--" ∨ text = "customer" then Option.none
    else numberSearch (replaceDDot text).data

/-- Python `round()` on an exact rational: round half to even. The
fraction `q - ⌊q⌋` is compared against one half over the common
denominator, so the whole computation stays in the integers. -/
def pyRound (q : ℚ) : ℤ :=
  let f := q.floor
  let r2 := 2 * (q.num - f * (q.den : ℤ))
  if r2 < (q.den : ℤ) then f
  else if (q.den : ℤ) < r2 then f + 1
  else if f % 2 = 0 then f else f + 1

/-- `parse_int` (lines 117-124); the float tolerance `1e-6` is the exact
rational `1/10^6` here, and `|parsed - rounded| > 1/10^6` is compared
over the common denominator. -/
def parse_int (value : Cell) : Option ℤ :=
  match parse_float value with
  | Option.none => Option.none
  | some parsed =>
    let rounded := pyRound parsed
    if parsed.den < 1000000 * (parsed.num - rounded * (parsed.den : ℤ)).natAbs then
      Option.none
    else some rounded

/-- `parse_date` (lines 127-155): returns the parsed date (or `none`) and
the raw text that was kept alongside it. -/
def parse_date (value : Cell) : Option PyDate × Option String :=
  match value with
  | .null => (Option.none, Option.none)
  | .date d => (some d, some (isoOfDate d))
  | v =>
    let text := pyStrip (cellStr v)
    if text = "" ∨ text = "-" ∨ text = "--" ∨ text = "#VALUE!" then
      (Option.none, if text = "" then Option.none else some text)
    else
      match parseDateText text with
      | some parsed => (some parsed, some text)
      | Option.none => (Option.none, some text)

/-- Match `-?\d+(?:\.\d+)?` (the capture group shared by `CT_PATTERN`,
`PCS_PATTERN` and `SLASH_NUMBER_PATTERN`) at the start of the input:
the matched characters and the rest. The digit runs are taken greedily;
shrinking them never helps because the continuation (`\s*` then a
letter, or the end of the group) can never start with a digit. -/
def simpleNumAt (cs : List Char) : Option (List Char × List Char) :=
  let p : List Char × List Char :=
    match cs with
    | '-' :: rest => (['-'], rest)
    | _ => ([], cs)
  let ds := p.2.takeWhile Char.isDigit
  if ds.isEmpty then Option.none
  else
    let rest1 := p.2.drop ds.length
    match rest1 with
    | '.' :: r =>
      let fs := r.takeWhile Char.isDigit
      if fs.isEmpty then some (p.1 ++ ds, rest1)
      else some (p.1 ++ ds ++ '.' :: fs, r.drop fs.length)
    | _ => some (p.1 ++ ds, rest1)

/-- `CT_PATTERN = (-?\d+(?:\.\d+)?)\s*ct` at one start position (the text
is already lower-cased, so the case-insensitivity flag is spent):
returns the capture group. -/
def ctMatchAt (cs : List Char) : Option (List Char) :=
  match simpleNumAt cs with
  | some g =>
    match g.2.dropWhile isPySpace with
    | 'c' :: 't' :: _ => some g.1
    | _ => Option.none
  | Option.none => Option.none

/-- `PCS_PATTERN = (-?\d+(?:\.\d+)?)\s*(?:pcs?|pieces?)` at one start
position: the alternation succeeds exactly when the remaining text
starts with `pc` (which `pcs?` accepts) or with `piece`. -/
def pcsMatchAt (cs : List Char) : Option (List Char) :=
  match simpleNumAt cs with
  | some g =>
    let rest := g.2.dropWhile isPySpace
    if ['p', 'c'].isPrefixOf rest || ['p', 'i', 'e', 'c', 'e'].isPrefixOf rest then some g.1
    else Option.none
  | Option.none => Option.none

/-- `SLASH_NUMBER_PATTERN = /\s*(-?\d+(?:\.\d+)?)` at one start
position: returns the capture group. -/
def slashMatchAt (cs : List Char) : Option (List Char) :=
  match cs with
  | '/' :: r =>
    match simpleNumAt (r.dropWhile isPySpace) with
    | some g => some g.1
    | Option.none => Option.none
  | _ => Option.none

/-- `parse_weight_and_pcs` (lines 158-185): `(ct_value, pcs_value)`. -/
def parse_weight_and_pcs (raw : Option String) : Option ℚ × Option ℚ :=
  match raw with
  | Option.none => (Option.none, Option.none)
  | some r =>
    if r = "" then (Option.none, Option.none)
    else
      let lower := pyLower r
      let cs := lower.data
      let ct_value : Option ℚ :=
        match scanWith ctMatchAt cs with
        | some g => parse_float (Cell.str ⟨g⟩)
        | Option.none => Option.none
      let pcs_first : Option ℚ :=
        match scanWith pcsMatchAt cs with
        | some g => parse_float (Cell.str ⟨g⟩)
        | Option.none => Option.none
      let pcs_value : Option ℚ :=
        match pcs_first with
        | Option.none =>
          match scanWith slashMatchAt cs with
          | some g => parse_float (Cell.str ⟨g⟩)
          | Option.none => Option.none
        | v => v
      if ct_value = Option.none ∧ pcs_value = Option.none then
        if containsSub cs ['p', 'c'] then (Option.none, parse_float (Cell.str lower))
        else (parse_float (Cell.str lower), Option.none)
      else (ct_value, pcs_value)

/-- Re-inject an already-normalized `str | None` value as a cell, for the
places the code re-feeds one to a scalar parser (Python needs no
conversion; the embedding's `Cell` does). -/
def cellOfOptStr : Option String → Cell
  | some s => Cell.str s
  | Option.none => Cell.null

/-- One data row (row index 3 onward) of the fixed 11-column inventory
sheet; `c1` .. `c11` are the values `sheet.cell(row_idx, 1..11).value`. -/
structure Row11 where
  c1 : Cell
  c2 : Cell
  c3 : Cell
  c4 : Cell
  c5 : Cell
  c6 : Cell
  c7 : Cell
  c8 : Cell
  c9 : Cell
  c10 : Cell
  c11 : Cell
deriving DecidableEq, Repr

/-- `InventoryRow` (lines 33-54). -/
structure InventoryRow where
  source_sheet : String
  source_row : ℕ
  gemstone_number : Option ℤ
  gemstone_number_text : Option String
  gemstone_type : Option String
  weight_pcs_raw : Option String
  shape : Option String
  price_per_ct_raw : Option String
  price_per_piece_raw : Option String
  buying_date : Option PyDate
  buying_date_raw : Option String
  balance_pcs : Option ℚ
  balance_ct : Option ℚ
  use_date : Option PyDate
  use_date_raw : Option String
  owner_name : Option String
  parsed_weight_ct : Option ℚ
  parsed_quantity_pcs : Option ℚ
  parsed_price_per_ct : Option ℚ
  parsed_price_per_piece : Option ℚ
deriving DecidableEq, Repr

/-- The blank-row test of `parse_inventory_sheet` (lines 206-219): note
it mixes raw cells (columns 1, 7, 10) with normalized or parsed values
(the other eight columns). -/
def inventoryRowBlank (r : Row11) : Bool :=
  r.c1 == Cell.null && (normalize_text r.c2).isNone && (normalize_text r.c3).isNone
    && (normalize_text r.c4).isNone && (normalize_text r.c5).isNone
    && (normalize_text r.c6).isNone && r.c7 == Cell.null
    && (parse_float r.c8).isNone && (parse_float r.c9).isNone
    && r.c10 == Cell.null && (normalize_text r.c11).isNone

/-- The retention condition of an inventory row, written as the
disjunction the blank-row test negates: raw cell non-null for columns 1,
7 and 10, normalized text non-null for columns 2-6 and 11, parsed float
non-null for columns 8 and 9. -/
def inventoryRowKept (r : Row11) : Bool :=
  r.c1 != Cell.null || (normalize_text r.c2).isSome || (normalize_text r.c3).isSome
    || (normalize_text r.c4).isSome || (normalize_text r.c5).isSome
    || (normalize_text r.c6).isSome || r.c7 != Cell.null
    || (parse_float r.c8).isSome || (parse_float r.c9).isSome
    || r.c10 != Cell.null || (normalize_text r.c11).isSome

/-- The record built for a retained inventory row (lines 221-248). -/
def mkInventoryRow (sheetName : String) (rowIdx : ℕ) (r : Row11) : InventoryRow :=
  { source_sheet := sheetName,
    source_row := rowIdx,
    gemstone_number := parse_int r.c1,
    gemstone_number_text := normalize_text r.c1,
    gemstone_type := normalize_text r.c2,
    weight_pcs_raw := normalize_text r.c3,
    shape := normalize_text r.c4,
    price_per_ct_raw := normalize_text r.c5,
    price_per_piece_raw := normalize_text r.c6,
    buying_date := (parse_date r.c7).1,
    buying_date_raw := (parse_date r.c7).2,
    balance_pcs := parse_float r.c8,
    balance_ct := parse_float r.c9,
    use_date := (parse_date r.c10).1,
    use_date_raw := (parse_date r.c10).2,
    owner_name := normalize_text r.c11,
    parsed_weight_ct := (parse_weight_and_pcs (normalize_text r.c3)).1,
    parsed_quantity_pcs := (parse_weight_and_pcs (normalize_text r.c3)).2,
    parsed_price_per_ct := parse_float (cellOfOptStr (normalize_text r.c5)),
    parsed_price_per_piece := parse_float (cellOfOptStr (normalize_text r.c6)) }

/-- The row loop of `parse_inventory_sheet` (lines 193-249), carrying the
row index (the loop starts at spreadsheet row 3). -/
def parseInventoryGo (sheetName : String) : ℕ → List Row11 → List InventoryRow
  | _, [] => []
  | idx, r :: rest =>
    if inventoryRowBlank r then parseInventoryGo sheetName idx.succ rest
    else mkInventoryRow sheetName idx r :: parseInventoryGo sheetName idx.succ rest

/-- `parse_inventory_sheet` (lines 188-251); `rows` are the sheet's rows
from spreadsheet row 3 to `max_row`. -/
def parse_inventory_sheet (sheetName : String) (rows : List Row11) : List InventoryRow :=
  parseInventoryGo sheetName 3 rows

/-- One data row (row index 3 onward) of a fixed 12-column usage sheet;
`c1` .. `c12` are the values `sheet.cell(row_idx, 1..12).value`. -/
structure Row12 where
  c1 : Cell
  c2 : Cell
  c3 : Cell
  c4 : Cell
  c5 : Cell
  c6 : Cell
  c7 : Cell
  c8 : Cell
  c9 : Cell
  c10 : Cell
  c11 : Cell
  c12 : Cell
deriving DecidableEq, Repr

/-- `UsageBatch` (lines 57-67). -/
structure UsageBatch where
  local_id : ℕ
  source_sheet : String
  source_row : ℕ
  product_category : String
  transaction_date : Option PyDate
  transaction_date_raw : Option String
  requester_name : Option String
  product_code : Option String
  total_amount : Option ℚ
deriving DecidableEq, Repr

/-- `UsageLine` (lines 70-82). -/
structure UsageLine where
  local_batch_id : ℕ
  source_row : ℕ
  gemstone_number : Option ℤ
  gemstone_name : Option String
  used_pcs : Option ℚ
  used_weight_ct : Option ℚ
  unit_price_raw : Option String
  line_amount : Option ℚ
  balance_pcs_after : Option ℚ
  balance_ct_after : Option ℚ
  requester_name : Option String
deriving DecidableEq, Repr

/-- The header-repeat test of line 283: localized "customer" label with
no product code and no item name. -/
def isCustomerHeaderRow (r : Row12) : Bool :=
  (normalize_text r.c2 == some "ลูกค้า" || normalize_text r.c2 == some "customer")
    && (normalize_text r.c3).isNone && (normalize_text r.c5).isNone

/-- The header-repeat test of line 285: localized "item name" label. -/
def isItemNameHeaderRow (r : Row12) : Bool :=
  normalize_text r.c5 == some "ชื่อพลอย"

/-- `has_line` (lines 288-291): any of catalogue number, item name, used
pieces, used weight, unit price text, line amount is non-null. -/
def rowHasLine (r : Row12) : Bool :=
  (parse_int r.c4).isSome || (normalize_text r.c5).isSome || (parse_float r.c6).isSome
    || (parse_float r.c7).isSome || (normalize_text r.c8).isSome
    || (parse_float r.c9).isSome

/-- `has_batch_marker` (line 293): product code, total amount or parsed
transaction date is non-null. -/
def rowHasBatchMarker (r : Row12) : Bool :=
  (normalize_text r.c3).isSome || (parse_float r.c10).isSome
    || ((parse_date r.c1).1).isSome

/-- The mutable state of the row-classification pass: output so far, the
next local batch id, and the in-progress batch. -/
structure ParseState where
  batches : List UsageBatch
  lines : List UsageLine
  nextLocalId : ℕ
  current : Option UsageBatch
deriving DecidableEq, Repr

/-- `flush_current` (lines 261-265). -/
def flushCurrent (s : ParseState) : ParseState :=
  match s.current with
  | some b => { s with batches := s.batches ++ [b], current := Option.none }
  | Option.none => s

/-- The batch opened for a row when no current batch exists
(lines 301-313). -/
def newBatchFromRow (sheetName category : String) (localId rowIdx : ℕ) (r : Row12) :
    UsageBatch :=
  { local_id := localId,
    source_sheet := sheetName,
    source_row := rowIdx,
    product_category := category,
    transaction_date := (parse_date r.c1).1,
    transaction_date_raw := (parse_date r.c1).2,
    requester_name := normalize_text r.c2,
    product_code := normalize_text r.c3,
    total_amount := parse_float r.c10 }

/-- The merge of a row into the current batch (lines 314-323): date (with
its raw text), requester and product code fill only a still-null field;
total amount is overwritten whenever the row supplies one. -/
def mergeIntoBatch (b : UsageBatch) (r : Row12) : UsageBatch :=
  let b1 :=
    if b.transaction_date = Option.none ∧ ((parse_date r.c1).1).isSome then
      { b with transaction_date := (parse_date r.c1).1,
               transaction_date_raw := (parse_date r.c1).2 }
    else b
  let b2 :=
    if b1.requester_name = Option.none ∧ (normalize_text r.c2).isSome then
      { b1 with requester_name := normalize_text r.c2 }
    else b1
  let b3 :=
    if b2.product_code = Option.none ∧ (normalize_text r.c3).isSome then
      { b2 with product_code := normalize_text r.c3 }
    else b2
  if (parse_float r.c10).isSome then { b3 with total_amount := parse_float r.c10 } else b3

/-- The line emitted against the current batch (lines 328-343). -/
def lineFromRow (batchId rowIdx : ℕ) (r : Row12) : UsageLine :=
  { local_batch_id := batchId,
    source_row := rowIdx,
    gemstone_number := parse_int r.c4,
    gemstone_name := normalize_text r.c5,
    used_pcs := parse_float r.c6,
    used_weight_ct := parse_float r.c7,
    unit_price_raw := normalize_text r.c8,
    line_amount := parse_float r.c9,
    balance_pcs_after := parse_float r.c11,
    balance_ct_after := parse_float r.c12,
    requester_name := normalize_text r.c2 }

/-- One iteration of the row loop of `parse_usage_sheet`
(lines 267-343). -/
def usageStep (sheetName category : String) (s : ParseState) (rowIdx : ℕ) (r : Row12) :
    ParseState :=
  if isCustomerHeaderRow r then s
  else if isItemNameHeaderRow r then s
  else if ¬ rowHasLine r ∧ ¬ rowHasBatchMarker r then s
  else
    let s1 := if (normalize_text r.c3).isSome then flushCurrent s else s
    let s2 :=
      match s1.current with
      | Option.none =>
        if rowHasLine r || rowHasBatchMarker r then
          { s1 with
            current := some (newBatchFromRow sheetName category s1.nextLocalId rowIdx r),
            nextLocalId := s1.nextLocalId + 1 }
        else s1
      | some b => { s1 with current := some (mergeIntoBatch b r) }
    match s2.current with
    | Option.none => s2
    | some b =>
      if rowHasLine r then { s2 with lines := s2.lines ++ [lineFromRow b.local_id rowIdx r] }
      else s2

/-- The row loop over the whole sheet, carrying the row index (the loop
starts at spreadsheet row 3). -/
def parseUsageGo (sheetName category : String) : ParseState → ℕ → List Row12 → ParseState
  | s, _, [] => s
  | s, idx, r :: rest =>
    parseUsageGo sheetName category (usageStep sheetName category s idx r) idx.succ rest

/-- The retention test of the post-pass (lines 349-353): the batch has a
line, or carries a product code or a total amount. -/
def batchRetained (emittedLines : List UsageLine) (b : UsageBatch) : Bool :=
  (emittedLines.map (fun l => l.local_batch_id)).contains b.local_id
    || b.product_code.isSome || b.total_amount.isSome

/-- The state after the whole row loop and the final `flush_current`
(lines 267-345): all emitted batches and lines, before the post-pass. -/
def usageScanState (sheetName category : String) (rows : List Row12) : ParseState :=
  flushCurrent (parseUsageGo sheetName category ⟨[], [], 1, Option.none⟩ 3 rows)

/-- `parse_usage_sheet` (lines 254-356); `rows` are the sheet's rows from
spreadsheet row 3 to `max_row`. -/
def parse_usage_sheet (sheetName category : String) (rows : List Row12) :
    List UsageBatch × List UsageLine :=
  let s' := usageScanState sheetName category rows
  let filtered_batches := s'.batches.filter (batchRetained s'.lines)
  let filtered_local_ids := filtered_batches.map (fun b => b.local_id)
  let filtered_lines := s'.lines.filter (fun l => filtered_local_ids.contains l.local_batch_id)
  (filtered_batches, filtered_lines)

/-- A value handed to `sql_literal` (lines 359-376); a Python `float` is
an exact rational here, so the `NaN` branch of the source has no
representative. -/
inductive SqlValue where
  | null
  | bool (b : Bool)
  | int (z : ℤ)
  | float (q : ℚ)
  | date (d : PyDate)
  | str (s : String)
deriving DecidableEq, Repr

/-- Python `f"{value:.6f}"` on an exact rational: six fraction digits,
rounded half to even (`q * 10^6` is formed as one `mkRat`). -/
def formatFloat6 (q : ℚ) : String :=
  let scaled := (pyRound (mkRat (q.num * 1000000) q.den)).natAbs
  (if q < 0 then "-" else "") ++ toString (scaled / 1000000) ++ "."
    ++ padLeft (toString (scaled % 1000000)) '0' 6

/-- `sql_literal` (lines 359-376). -/
def sql_literal : SqlValue → String
  | .null => "NULL"
  | .bool b => if b then "1" else "0"
  | .int z => toString z
  | .float q =>
    let text := String.mk (((formatFloat6 q).data.reverse.dropWhile (fun c => c == '0')).reverse)
    let text := String.mk ((text.data.reverse.dropWhile (fun c => c == '.')).reverse)
    if text = "" then "0" else text
  | .date d => "'" ++ isoOfDate d ++ "'"
  | .str s => "N'" ++ String.mk (s.data.flatMap (fun c => if c = '\'' then ['\'', '\''] else [c])) ++ "'"

/-- Lift an optional value into a `SqlValue` through a constructor. -/
def optSql (f : α → SqlValue) : Option α → SqlValue
  | some a => f a
  | Option.none => SqlValue.null

/-- The `INSERT` statement built for one inventory row (lines 403-434). -/
def inventoryInsert (row : InventoryRow) : String :=
  "INSERT INTO dbo.gem_inventory_items ("
    ++ "source_sheet, source_row, gemstone_number, gemstone_number_text, gemstone_type, weight_pcs_raw, "
    ++ "shape, price_per_ct_raw, price_per_piece_raw, buying_date, buying_date_raw, balance_pcs, balance_ct, "
    ++ "use_date, use_date_raw, owner_name, parsed_weight_ct, parsed_quantity_pcs, parsed_price_per_ct, "
    ++ "parsed_price_per_piece"
    ++ ") VALUES ("
    ++ sql_literal (SqlValue.str row.source_sheet) ++ ", "
    ++ sql_literal (SqlValue.int row.source_row) ++ ", "
    ++ sql_literal (optSql SqlValue.int row.gemstone_number) ++ ", "
    ++ sql_literal (optSql SqlValue.str row.gemstone_number_text) ++ ", "
    ++ sql_literal (optSql SqlValue.str row.gemstone_type) ++ ", "
    ++ sql_literal (optSql SqlValue.str row.weight_pcs_raw) ++ ", "
    ++ sql_literal (optSql SqlValue.str row.shape) ++ ", "
    ++ sql_literal (optSql SqlValue.str row.price_per_ct_raw) ++ ", "
    ++ sql_literal (optSql SqlValue.str row.price_per_piece_raw) ++ ", "
    ++ sql_literal (optSql SqlValue.date row.buying_date) ++ ", "
    ++ sql_literal (optSql SqlValue.str row.buying_date_raw) ++ ", "
    ++ sql_literal (optSql SqlValue.float row.balance_pcs) ++ ", "
    ++ sql_literal (optSql SqlValue.float row.balance_ct) ++ ", "
    ++ sql_literal (optSql SqlValue.date row.use_date) ++ ", "
    ++ sql_literal (optSql SqlValue.str row.use_date_raw) ++ ", "
    ++ sql_literal (optSql SqlValue.str row.owner_name) ++ ", "
    ++ sql_literal (optSql SqlValue.float row.parsed_weight_ct) ++ ", "
    ++ sql_literal (optSql SqlValue.float row.parsed_quantity_pcs) ++ ", "
    ++ sql_literal (optSql SqlValue.float row.parsed_price_per_ct) ++ ", "
    ++ sql_literal (optSql SqlValue.float row.parsed_price_per_piece)
    ++ ");"

/-- Last-value-wins association lookup: Python `dict` built from a list
of key/value pairs, read with `.get`. -/
def lastAssoc (pairs : List (ℕ × ℕ)) (key : ℕ) : Option ℕ :=
  pairs.foldl (fun acc p => if p.1 = key then some p.2 else acc) Option.none

/-- The append-mode seed (line 441): `1_000_000 + (now % 1_000_000) *
1000`, with the current POSIX second `nowTs` an explicit input of the
embedding. -/
def appendSeed (nowTs : ℕ) : ℕ :=
  1000000 + (nowTs % 1000000) * 1000

/-- `batch_id_map` (lines 438-442) as its key/value pairs: identity when
truncating, seed plus enumeration index when appending. -/
def batchIdPairs (truncate_first : Bool) (nowTs : ℕ) (batches : List UsageBatch) :
    List (ℕ × ℕ) :=
  if truncate_first then batches.map (fun b => (b.local_id, b.local_id))
  else batches.enum.map (fun p => (p.2.local_id, appendSeed nowTs + p.1))

/-- The `INSERT` for one usage batch under its explicitly assigned
identity (lines 446-465). -/
def batchInsert (explicitId : ℕ) (b : UsageBatch) : String :=
  "INSERT INTO dbo.gem_usage_batches ("
    ++ "id, source_sheet, source_row, product_category, transaction_date, transaction_date_raw, "
    ++ "requester_name, product_code, total_amount"
    ++ ") VALUES ("
    ++ sql_literal (SqlValue.int explicitId) ++ ", "
    ++ sql_literal (SqlValue.str b.source_sheet) ++ ", "
    ++ sql_literal (SqlValue.int b.source_row) ++ ", "
    ++ sql_literal (SqlValue.str b.product_category) ++ ", "
    ++ sql_literal (optSql SqlValue.date b.transaction_date) ++ ", "
    ++ sql_literal (optSql SqlValue.str b.transaction_date_raw) ++ ", "
    ++ sql_literal (optSql SqlValue.str b.requester_name) ++ ", "
    ++ sql_literal (optSql SqlValue.str b.product_code) ++ ", "
    ++ sql_literal (optSql SqlValue.float b.total_amount)
    ++ ");"

/-- The `INSERT` for one usage line under its batch's assigned identity
(lines 472-491). -/
def lineInsert (batchId : ℕ) (line : UsageLine) : String :=
  "INSERT INTO dbo.gem_usage_lines ("
    ++ "batch_id, source_row, gemstone_number, gemstone_name, used_pcs, used_weight_ct, unit_price_raw, "
    ++ "line_amount, balance_pcs_after, balance_ct_after, requester_name"
    ++ ") VALUES ("
    ++ sql_literal (SqlValue.int batchId) ++ ", "
    ++ sql_literal (SqlValue.int line.source_row) ++ ", "
    ++ sql_literal (optSql SqlValue.int line.gemstone_number) ++ ", "
    ++ sql_literal (optSql SqlValue.str line.gemstone_name) ++ ", "
    ++ sql_literal (optSql SqlValue.float line.used_pcs) ++ ", "
    ++ sql_literal (optSql SqlValue.float line.used_weight_ct) ++ ", "
    ++ sql_literal (optSql SqlValue.str line.unit_price_raw) ++ ", "
    ++ sql_literal (optSql SqlValue.float line.line_amount) ++ ", "
    ++ sql_literal (optSql SqlValue.float line.balance_pcs_after) ++ ", "
    ++ sql_literal (optSql SqlValue.float line.balance_ct_after) ++ ", "
    ++ sql_literal (optSql SqlValue.str line.requester_name)
    ++ ");"

/-- The statement list of `build_import_sql` (lines 379-494). A batch's
lookup in `batch_id_map` always succeeds (the dict is built from the same
list), so the impossible `KeyError` is rendered as a default that is
never read; a line's lookup uses `.get` and a miss skips the line. -/
def buildImportStatements (inventory_rows : List InventoryRow)
    (usage_batches : List UsageBatch) (usage_lines : List UsageLine)
    (truncate_first : Bool) (nowTs : ℕ) : List String :=
  let idPairs := batchIdPairs truncate_first nowTs usage_batches
  ["SET XACT_ABORT ON;", "BEGIN TRANSACTION;"]
    ++ (if truncate_first then
          ["DELETE FROM dbo.gem_usage_lines;", "DELETE FROM dbo.gem_usage_batches;",
           "DELETE FROM dbo.gem_inventory_items;"]
        else [])
    ++ inventory_rows.map inventoryInsert
    ++ (if usage_batches.isEmpty then []
        else
          ["SET IDENTITY_INSERT dbo.gem_usage_batches ON;"]
            ++ usage_batches.map
                (fun b => batchInsert ((lastAssoc idPairs b.local_id).getD 0) b)
            ++ ["SET IDENTITY_INSERT dbo.gem_usage_batches OFF;"])
    ++ usage_lines.filterMap
        (fun line => (lastAssoc idPairs line.local_batch_id).map (fun i => lineInsert i line))
    ++ ["COMMIT TRANSACTION;"]

/-- `build_import_sql` (lines 379-494): the statements joined by
newlines, with a trailing newline. -/
def build_import_sql (inventory_rows : List InventoryRow)
    (usage_batches : List UsageBatch) (usage_lines : List UsageLine)
    (truncate_first : Bool) (nowTs : ℕ) : String :=
  String.intercalate "\n"
      (buildImportStatements inventory_rows usage_batches usage_lines truncate_first nowTs)
    ++ "\n"

/-! Example rows used by the concrete theorems below. -/

/-- A usage-sheet row with every cell empty. -/
def blankRow12 : Row12 :=
  ⟨Cell.null, Cell.null, Cell.null, Cell.null, Cell.null, Cell.null, Cell.null,
   Cell.null, Cell.null, Cell.null, Cell.null, Cell.null⟩

/-- A usage-sheet header row carrying only a product code. -/
def codeRow (code : String) : Row12 := { blankRow12 with c3 := Cell.str code }

/-- A usage-sheet continuation row carrying only an item name. -/
def itemRow (nm : String) : Row12 := { blankRow12 with c5 := Cell.str nm }

/-- A usage-sheet row carrying a product code and an item name. -/
def codeItemRow (code nm : String) : Row12 :=
  { blankRow12 with c3 := Cell.str code, c5 := Cell.str nm }

/-- A usage-sheet row carrying only a requester-name cell. -/
def requesterRow (nm : String) : Row12 := { blankRow12 with c2 := Cell.str nm }

/-- An inventory-sheet row with every cell empty. -/
def blankRow11 : Row11 :=
  ⟨Cell.null, Cell.null, Cell.null, Cell.null, Cell.null, Cell.null, Cell.null,
   Cell.null, Cell.null, Cell.null, Cell.null⟩

/-- An inventory-sheet row whose only content is a dash placeholder in
the gemstone-type column (column 2). -/
def dashTypeRow : Row11 := { blankRow11 with c2 := Cell.str "-" }

/-- An inventory-sheet row whose only content is a dash placeholder in
the catalogue-number column (column 1). -/
def dashNumberRow : Row11 := { blankRow11 with c1 := Cell.str "-" }

/-! Helper lemmas. -/

theorem dropWhile_self_twice (p : Char → Bool) (l : List Char) :
    (l.dropWhile p).dropWhile p = l.dropWhile p := by
  induction l with
  | nil => rfl
  | cons a t ih =>
    by_cases h : p a
    · simp [List.dropWhile_cons, h, ih]
    · simp [List.dropWhile_cons, h]

theorem stripRight_decomp (l : List Char) :
    l = stripRight l ++ (l.reverse.takeWhile isPySpace).reverse := by
  conv_lhs =>
    rw [← l.reverse_reverse,
        ← List.takeWhile_append_dropWhile (p := isPySpace) (l := l.reverse)]
  rw [List.reverse_append]
  rfl

theorem stripLeft_stripRight (l : List Char) (h : l.dropWhile isPySpace = l) :
    (stripRight l).dropWhile isPySpace = stripRight l := by
  rcases hz : stripRight l with _ | ⟨a, z⟩
  · rfl
  · have hd := stripRight_decomp l
    rw [hz] at hd
    by_cases hp : isPySpace a
    · exfalso
      rw [hd, List.cons_append, List.dropWhile_cons, if_pos hp] at h
      have hlen := congrArg List.length h
      have hle :=
        (List.dropWhile_sublist
          (l := z ++ (l.reverse.takeWhile isPySpace).reverse) isPySpace).length_le
      simp at hlen hle
      omega
    · rw [List.dropWhile_cons, if_neg hp]

theorem stripRight_stripRight (l : List Char) :
    stripRight (stripRight l) = stripRight l := by
  unfold stripRight
  rw [List.reverse_reverse, dropWhile_self_twice]

theorem pyStripList_idem (cs : List Char) :
    pyStripList (pyStripList cs) = pyStripList cs := by
  unfold pyStripList
  rw [show stripLeft (stripRight (stripLeft cs)) = stripRight (stripLeft cs) from
        stripLeft_stripRight (stripLeft cs) (dropWhile_self_twice isPySpace cs),
      stripRight_stripRight]

theorem pyStrip_idem (s : String) : pyStrip (pyStrip s) = pyStrip s := by
  show String.mk (pyStripList (String.mk (pyStripList s.data)).data) = _
  rw [show (String.mk (pyStripList s.data)).data = pyStripList s.data from rfl,
      pyStripList_idem]
  rfl

theorem normalize_text_str (s : String) :
    normalize_text (Cell.str s) =
      if pyStrip s = "" ∨ pyStrip s = "-" then Option.none else some (pyStrip s) := rfl

theorem normalize_text_str_idem (s : String) :
    normalize_text (cellOfOptStr (normalize_text (Cell.str s))) =
      normalize_text (Cell.str s) := by
  by_cases h : pyStrip s = "" ∨ pyStrip s = "-"
  · rw [normalize_text_str, if_pos h]
    rfl
  · rw [normalize_text_str, if_neg h]
    show normalize_text (Cell.str (pyStrip s)) = _
    rw [normalize_text_str, pyStrip_idem, if_neg h]

/-! The claims. -/

/-- C10: `normalize_text` is idempotent: re-normalizing its result (fed
back as a cell value, `None` for `none`) returns the result unchanged —
a returned text is already stripped and is neither empty nor the dash
placeholder. -/
theorem normalize_text_idem (v : Cell) :
    normalize_text (cellOfOptStr (normalize_text v)) = normalize_text v := by
  cases v with
  | null => rfl
  | str s => exact normalize_text_str_idem s
  | int z => exact normalize_text_str_idem (cellStr (Cell.int z))
  | float q => exact normalize_text_str_idem (cellStr (Cell.float q))
  | bool b => exact normalize_text_str_idem (cellStr (Cell.bool b))
  | date d => exact normalize_text_str_idem (cellStr (Cell.date d))

/-- C6 counterexample: the claim says `normalize_text` returns null for
the placeholder `"--"`, but the code only maps `""` and `"-"` to null,
so `"--"` comes back unchanged. -/
theorem normalize_text_double_dash_cex : normalize_text (Cell.str "--") = some "--" := by
  decide

/-- C6 (amended): `parse_float` returns null for both placeholder tokens
`"-"` and `"--"`; `normalize_text` returns null for `"-"` but returns
`"--"` unchanged. -/
theorem placeholder_null_amended :
    parse_float (Cell.str "-") = Option.none
      ∧ parse_float (Cell.str "--") = Option.none
      ∧ normalize_text (Cell.str "-") = Option.none
      ∧ normalize_text (Cell.str "--") = some "--" := by
  decide

/-- C7: the pattern precedence of `parse_weight_and_pcs` on the four
spec examples: `"3.5ct/2pcs"` gives weight 3.5 (that is `mkRat 7 2`)
and quantity 2; `"10pcs"` gives no weight and quantity 10; the
price-per-piece text "200 dot dash slash pc" (spelled out here because
its slash would end this comment) gives no weight and a non-null
quantity (200); bare `"5.0"` with no unit marker gives weight 5.0 and
no quantity. -/
theorem parse_weight_and_pcs_examples :
    parse_weight_and_pcs (some "3.5ct/2pcs") = (some (mkRat 7 2), some 2)
      ∧ parse_weight_and_pcs (some "10pcs") = (Option.none, some 10)
      ∧ parse_weight_and_pcs (some "200.-/pc") = (Option.none, some 200)
      ∧ parse_weight_and_pcs (some "5.0") = (some 5, Option.none) := by
  decide

/-- Unfolding of `parse_date` on a text cell. -/
theorem parse_date_str (s : String) :
    parse_date (Cell.str s) =
      if pyStrip s = "" ∨ pyStrip s = "-" ∨ pyStrip s = "--" ∨ pyStrip s = "#VALUE!" then
        (Option.none, if pyStrip s = "" then Option.none else some (pyStrip s))
      else
        match parseDateText (pyStrip s) with
        | some parsed => (some parsed, some (pyStrip s))
        | Option.none => (Option.none, some (pyStrip s)) := rfl

/-- C5 counterexample: the claim says a recognized placeholder yields a
null raw text, but `parse_date("-")` keeps the raw text `"-"` (the code
returns `text if text else None`, and a placeholder is non-empty). -/
theorem parse_date_placeholder_cex : parse_date (Cell.str "-") = (Option.none, some "-") := by
  decide

/-- C5 (amended): a recognized placeholder (`"-"`, `"--"`, the
error-literal `"#VALUE!"`) yields a null date with the (stripped) raw
text preserved — not a null raw text; and any other text matching none
of the six date layouts also yields a null date with the stripped text
preserved. Only the empty string yields a null raw text. -/
theorem parse_date_raw_text_amended :
    (∀ p : String, p = "-" ∨ p = "--" ∨ p = "#VALUE!" →
        parse_date (Cell.str p) = (Option.none, some p))
      ∧ (∀ s : String, ¬ pyStrip s = "" → parseDateText (pyStrip s) = Option.none →
          parse_date (Cell.str s) = (Option.none, some (pyStrip s))) := by
  constructor
  · rintro p (rfl | rfl | rfl) <;> decide
  · intro s hne hfmt
    rw [parse_date_str]
    by_cases h : pyStrip s = "" ∨ pyStrip s = "-" ∨ pyStrip s = "--" ∨ pyStrip s = "#VALUE!"
    · rw [if_pos h, if_neg hne]
    · rw [if_neg h, hfmt]

/-- The merge of a row into the current batch, flattened to one record
update per field. -/
theorem mergeIntoBatch_eq (b : UsageBatch) (r : Row12) :
    mergeIntoBatch b r =
      { b with
        transaction_date :=
          if b.transaction_date = Option.none ∧ ((parse_date r.c1).1).isSome then
            (parse_date r.c1).1
          else b.transaction_date,
        transaction_date_raw :=
          if b.transaction_date = Option.none ∧ ((parse_date r.c1).1).isSome then
            (parse_date r.c1).2
          else b.transaction_date_raw,
        requester_name :=
          if b.requester_name = Option.none ∧ (normalize_text r.c2).isSome then
            normalize_text r.c2
          else b.requester_name,
        product_code :=
          if b.product_code = Option.none ∧ (normalize_text r.c3).isSome then
            normalize_text r.c3
          else b.product_code,
        total_amount :=
          if (parse_float r.c10).isSome then parse_float r.c10 else b.total_amount } := by
  unfold mergeIntoBatch
  by_cases h1 : b.transaction_date = Option.none ∧ ((parse_date r.c1).1).isSome
    <;> by_cases h2 : b.requester_name = Option.none ∧ (normalize_text r.c2).isSome
    <;> by_cases h3 : b.product_code = Option.none ∧ (normalize_text r.c3).isSome
    <;> by_cases h4 : (parse_float r.c10).isSome
    <;> simp [h1, h2, h3, h4]

/-- A row that passes the header-skip tests, whose product code is null
and that meets the current batch merges into it. -/
theorem usageStep_merge (sheetName category : String) (s : ParseState) (rowIdx : ℕ)
    (r : Row12) (b : UsageBatch)
    (hcust : isCustomerHeaderRow r = false) (hitem : isItemNameHeaderRow r = false)
    (hrow : rowHasLine r = true ∨ rowHasBatchMarker r = true)
    (hcode : normalize_text r.c3 = Option.none)
    (hcur : s.current = some b) :
    (usageStep sheetName category s rowIdx r).current = some (mergeIntoBatch b r) := by
  unfold usageStep
  rw [if_neg (by simp [hcust]), if_neg (by simp [hitem]),
      if_neg (by rcases hrow with h | h <;> simp [h])]
  have hc : (normalize_text r.c3).isSome = false := by simp [hcode]
  simp only [hc, Bool.false_eq_true, if_false, hcur]
  cases hl : rowHasLine r <;> simp

/-- A row that passes the header-skip tests and carries a product code
finalizes the current batch (if any) and opens a new one seeded from the
row; a line, if the row carries line content, goes to the new batch. -/
theorem usageStep_new_batch (sheetName category : String) (s : ParseState) (rowIdx : ℕ)
    (r : Row12)
    (hcust : isCustomerHeaderRow r = false) (hitem : isItemNameHeaderRow r = false)
    (hcode : (normalize_text r.c3).isSome = true) :
    usageStep sheetName category s rowIdx r =
      { batches := s.batches ++ s.current.toList,
        lines := s.lines ++
          (if rowHasLine r then [lineFromRow s.nextLocalId rowIdx r] else []),
        nextLocalId := s.nextLocalId + 1,
        current := some (newBatchFromRow sheetName category s.nextLocalId rowIdx r) } := by
  have hmark : rowHasBatchMarker r = true := by
    unfold rowHasBatchMarker
    simp [hcode]
  unfold usageStep
  rw [if_neg (by simp [hcust]), if_neg (by simp [hitem]), if_neg (by simp [hmark])]
  simp only [hcode, if_true]
  cases hc : s.current with
  | none =>
    cases hl : rowHasLine r <;> simp [flushCurrent, hc, hmark, hl, newBatchFromRow]
  | some b =>
    cases hl : rowHasLine r <;> simp [flushCurrent, hc, hmark, hl, newBatchFromRow]

/-- C1 counterexample: a row carrying the product code "B" together with
the localized "item name" header label is skipped by the header filter,
so it neither finalizes the open batch nor opens a batch of its own —
the claim's "always" fails for it (no batch with code "B" appears). -/
theorem usage_product_code_header_skip_cex :
    normalize_text (codeItemRow "B" "ชื่อพลอย").c3 = some "B"
      ∧ (parse_usage_sheet "S" "cat" [codeRow "A", codeItemRow "B" "ชื่อพลอย"]).1.map
          (fun b => b.product_code) = [some "A"] := by
  decide

/-- C1 (amended): a row that passes the header-skip tests and has a
non-null product code always finalizes the current batch (appending it
to the output) and opens a new batch seeded from that row; and the
concrete sheet [header with code A, two continuation rows with line
content, header with code B] yields exactly two batches, batch A (local
id 1) with exactly two lines and batch B (local id 2) with none yet
retained, because it carries a product code. -/
theorem usage_product_code_new_batch_amended :
    (∀ (sheetName category : String) (s : ParseState) (rowIdx : ℕ) (r : Row12),
        isCustomerHeaderRow r = false → isItemNameHeaderRow r = false →
        (normalize_text r.c3).isSome = true →
        usageStep sheetName category s rowIdx r =
          { batches := s.batches ++ s.current.toList,
            lines := s.lines ++
              (if rowHasLine r then [lineFromRow s.nextLocalId rowIdx r] else []),
            nextLocalId := s.nextLocalId + 1,
            current := some (newBatchFromRow sheetName category s.nextLocalId rowIdx r) })
      ∧ ((parse_usage_sheet "S" "cat"
            [codeRow "A", itemRow "item1", itemRow "item2", codeRow "B"]).1.map
              (fun b => (b.local_id, b.product_code)) = [(1, some "A"), (2, some "B")]
          ∧ (parse_usage_sheet "S" "cat"
              [codeRow "A", itemRow "item1", itemRow "item2", codeRow "B"]).2.map
                (fun l => l.local_batch_id) = [1, 1]) := by
  refine ⟨fun sheetName category s rowIdx r hcust hitem hcode =>
      usageStep_new_batch sheetName category s rowIdx r hcust hitem hcode, by decide, by decide⟩

/-- C3: merging a row that did not start a new batch into the current
batch adopts the transaction date (together with its raw text), the
requester name and the product code only where the batch's own field is
still null and never overwrites one once set, while the total amount is
overwritten whenever the row supplies a non-null value. -/
theorem usage_merge_first_null_wins_total_overwrites :
    (∀ (sheetName category : String) (s : ParseState) (rowIdx : ℕ) (r : Row12)
        (b : UsageBatch),
        isCustomerHeaderRow r = false → isItemNameHeaderRow r = false →
        (rowHasLine r = true ∨ rowHasBatchMarker r = true) →
        normalize_text r.c3 = Option.none → s.current = some b →
        (usageStep sheetName category s rowIdx r).current = some (mergeIntoBatch b r))
      ∧ (∀ (b : UsageBatch) (r : Row12),
          (b.transaction_date ≠ Option.none →
              (mergeIntoBatch b r).transaction_date = b.transaction_date
                ∧ (mergeIntoBatch b r).transaction_date_raw = b.transaction_date_raw)
            ∧ (b.transaction_date = Option.none → ((parse_date r.c1).1).isSome = true →
                (mergeIntoBatch b r).transaction_date = (parse_date r.c1).1
                  ∧ (mergeIntoBatch b r).transaction_date_raw = (parse_date r.c1).2)
            ∧ (b.transaction_date = Option.none → (parse_date r.c1).1 = Option.none →
                (mergeIntoBatch b r).transaction_date = Option.none
                  ∧ (mergeIntoBatch b r).transaction_date_raw = b.transaction_date_raw)
            ∧ (b.requester_name ≠ Option.none →
                (mergeIntoBatch b r).requester_name = b.requester_name)
            ∧ (b.requester_name = Option.none →
                (mergeIntoBatch b r).requester_name = normalize_text r.c2)
            ∧ (b.product_code ≠ Option.none →
                (mergeIntoBatch b r).product_code = b.product_code)
            ∧ (b.product_code = Option.none →
                (mergeIntoBatch b r).product_code = normalize_text r.c3)
            ∧ ((parse_float r.c10).isSome = true →
                (mergeIntoBatch b r).total_amount = parse_float r.c10)
            ∧ (parse_float r.c10 = Option.none →
                (mergeIntoBatch b r).total_amount = b.total_amount)) := by
  constructor
  · intro sheetName category s rowIdx r b hcust hitem hrow hcode hcur
    exact usageStep_merge sheetName category s rowIdx r b hcust hitem hrow hcode hcur
  · intro b r
    rw [mergeIntoBatch_eq]
    refine ⟨fun h => ⟨?_, ?_⟩, fun h h2 => ⟨?_, ?_⟩, fun h h2 => ⟨?_, ?_⟩, fun h => ?_,
        fun h => ?_, fun h => ?_, fun h => ?_, fun h => ?_, fun h => ?_⟩
      <;> simp_all

/-- The retention condition is the negation of the blank-row test. -/
theorem inventoryRowKept_not_blank (r : Row11) :
    inventoryRowKept r = !inventoryRowBlank r := by
  unfold inventoryRowKept inventoryRowBlank
  simp only [bne, ← Option.bnot_isSome, Bool.not_and, Bool.not_not]

/-- The inventory row loop is the filter of the enumerated rows by the
retention condition, mapped through the record builder. -/
theorem parseInventoryGo_filter (sheetName : String) (idx : ℕ) (rows : List Row11) :
    parseInventoryGo sheetName idx rows =
      ((List.enumFrom idx rows).filter (fun p => inventoryRowKept p.2)).map
        (fun p => mkInventoryRow sheetName p.1 p.2) := by
  induction rows generalizing idx with
  | nil => rfl
  | cons r rest ih =>
    rw [List.enumFrom]
    cases hk : inventoryRowKept r with
    | true =>
      have hb : inventoryRowBlank r = false := by
        have := inventoryRowKept_not_blank r
        rw [hk] at this
        cases hblank : inventoryRowBlank r
        · rfl
        · rw [hblank] at this
          exact absurd this.symm (by decide)
      unfold parseInventoryGo
      rw [hb]
      simp only [List.filter_cons, hk, if_true, List.map_cons]
      rw [ih (idx + 1)]
      rfl
    | false =>
      have hb : inventoryRowBlank r = true := by
        have := inventoryRowKept_not_blank r
        rw [hk] at this
        cases hblank : inventoryRowBlank r
        · rw [hblank] at this
          exact absurd this.symm (by decide)
        · rfl
      unfold parseInventoryGo
      rw [hb]
      simp only [List.filter_cons, hk, if_false]
      rw [ih (idx + 1)]
      rfl

/-- C4 counterexample: the claim's "retained iff any of its eleven
source columns is non-null" fails both ways. A row whose only non-null
source cell is a dash placeholder in column 2 is dropped (the check uses
the normalized value there); and a row whose only non-null source cell
is a dash placeholder in column 1 is retained (the check uses the raw
cell there) although every source-column field of its record is null. -/
theorem inventory_retention_cex :
    dashTypeRow.c2 ≠ Cell.null
      ∧ parse_inventory_sheet "S" [dashTypeRow] = []
      ∧ dashNumberRow.c1 ≠ Cell.null
      ∧ (parse_inventory_sheet "S" [dashNumberRow]).length = 1
      ∧ (parse_inventory_sheet "S" [dashNumberRow]).all
          (fun rec0 =>
            rec0.gemstone_number.isNone && rec0.gemstone_number_text.isNone
              && rec0.gemstone_type.isNone && rec0.weight_pcs_raw.isNone
              && rec0.shape.isNone && rec0.price_per_ct_raw.isNone
              && rec0.price_per_piece_raw.isNone && rec0.buying_date.isNone
              && rec0.buying_date_raw.isNone && rec0.balance_pcs.isNone
              && rec0.balance_ct.isNone && rec0.use_date.isNone
              && rec0.use_date_raw.isNone && rec0.owner_name.isNone) = true := by
  decide

/-- C4 (amended): a spreadsheet row is retained (produces a record) if
and only if any of the eleven per-column checks is non-null, where
columns 1, 7 and 10 are checked as raw cells and the other eight as
their normalized or parsed values; the output is exactly the retained
rows mapped through the record builder. A non-null raw cell whose value
normalizes to null (a dash placeholder outside columns 1, 7, 10) does
not retain the row, and a retained record can have every source-column
field null. -/
theorem inventory_retention_amended (sheetName : String) (rows : List Row11) :
    parse_inventory_sheet sheetName rows =
      ((List.enumFrom 3 rows).filter (fun p => inventoryRowKept p.2)).map
        (fun p => mkInventoryRow sheetName p.1 p.2)
      ∧ (∀ r : Row11,
          inventoryRowKept r = true ↔
            (r.c1 ≠ Cell.null ∨ normalize_text r.c2 ≠ Option.none
              ∨ normalize_text r.c3 ≠ Option.none ∨ normalize_text r.c4 ≠ Option.none
              ∨ normalize_text r.c5 ≠ Option.none ∨ normalize_text r.c6 ≠ Option.none
              ∨ r.c7 ≠ Cell.null ∨ parse_float r.c8 ≠ Option.none
              ∨ parse_float r.c9 ≠ Option.none ∨ r.c10 ≠ Cell.null
              ∨ normalize_text r.c11 ≠ Option.none)) := by
  constructor
  · exact parseInventoryGo_filter sheetName 3 rows
  · intro r
    unfold inventoryRowKept
    simp [Option.isSome_iff_ne_none]
    tauto

/-- C2: a batch appears in the returned batch list if and only if it was
emitted by the row pass and at least one emitted line references its
local id, or its product code is non-null, or its total amount is
non-null; and every line of the returned line list references a batch
present in the returned batch list. -/
theorem usage_batch_retention_invariant (sheetName category : String) (rows : List Row12) :
    (∀ b : UsageBatch,
        b ∈ (parse_usage_sheet sheetName category rows).1 ↔
          (b ∈ (usageScanState sheetName category rows).batches
            ∧ ((∃ l, l ∈ (usageScanState sheetName category rows).lines
                  ∧ l.local_batch_id = b.local_id)
                ∨ b.product_code ≠ Option.none ∨ b.total_amount ≠ Option.none)))
      ∧ (∀ l, l ∈ (parse_usage_sheet sheetName category rows).2 →
          ∃ b, b ∈ (parse_usage_sheet sheetName category rows).1
            ∧ b.local_id = l.local_batch_id) := by
  constructor
  · intro b
    simp only [parse_usage_sheet, List.mem_filter, batchRetained]
    constructor
    · rintro ⟨hmem, hcond⟩
      refine ⟨hmem, ?_⟩
      simp only [Bool.or_eq_true, List.elem_iff, List.mem_map,
        Option.isSome_iff_ne_none] at hcond
      rcases hcond with (⟨l, hl, hid⟩ | h) | h
      · exact Or.inl ⟨l, hl, hid⟩
      · exact Or.inr (Or.inl h)
      · exact Or.inr (Or.inr h)
    · rintro ⟨hmem, hcond⟩
      refine ⟨hmem, ?_⟩
      simp only [Bool.or_eq_true, List.elem_iff, List.mem_map,
        Option.isSome_iff_ne_none]
      rcases hcond with ⟨l, hl, hid⟩ | h | h
      · exact Or.inl (Or.inl ⟨l, hl, hid⟩)
      · exact Or.inl (Or.inr h)
      · exact Or.inr h
  · intro l hl
    simp only [parse_usage_sheet, List.mem_filter] at hl
    rcases hl with ⟨hmem, hcond⟩
    rw [List.elem_iff, List.mem_map] at hcond
    rcases hcond with ⟨b, hb, hid⟩
    exact ⟨b, by simpa [parse_usage_sheet, List.mem_filter] using hb, hid⟩

/-- Folding the last-wins lookup over a value-shifted pair list shifts
the result. -/
theorem lastAssoc_map_shift_aux (c key : ℕ) (base : List (ℕ × ℕ)) (acc : Option ℕ) :
    (base.map (fun p => (p.1, c + p.2))).foldl
        (fun a p => if p.1 = key then some p.2 else a) (acc.map (fun v => c + v))
      = (base.foldl (fun a p => if p.1 = key then some p.2 else a) acc).map
          (fun v => c + v) := by
  induction base generalizing acc with
  | nil => rfl
  | cons p rest ih =>
    simp only [List.map_cons, List.foldl_cons]
    by_cases h : p.1 = key
    · rw [if_pos h, if_pos h, show some (c + p.2) = (some p.2).map (fun v => c + v) from rfl,
          ih]
    · rw [if_neg h, if_neg h, ih]

theorem lastAssoc_map_shift (c key : ℕ) (base : List (ℕ × ℕ)) :
    lastAssoc (base.map (fun p => (p.1, c + p.2))) key
      = (lastAssoc base key).map (fun v => c + v) := by
  have := lastAssoc_map_shift_aux c key base Option.none
  simpa [lastAssoc] using this

/-- Last-wins lookup over pairs whose value equals their key can only
return the key. -/
theorem lastAssoc_id_aux (key : ℕ) (pairs : List (ℕ × ℕ))
    (hp : ∀ p, p ∈ pairs → p.2 = p.1) (acc : Option ℕ)
    (hacc : ∀ w, acc = some w → w = key) :
    ∀ v, pairs.foldl (fun a p => if p.1 = key then some p.2 else a) acc = some v → v = key := by
  induction pairs generalizing acc with
  | nil => exact hacc
  | cons p rest ih =>
    intro v hv
    refine ih (fun q hq => hp q (List.mem_cons_of_mem p hq)) _ ?_ v hv
    intro w hw
    by_cases h : p.1 = key
    · simp only [if_pos h] at hw
      have := hp p (List.mem_cons_self p rest)
      rw [this, h] at hw
      exact (Option.some_inj.mp hw).symm
    · simp only [if_neg h] at hw
      exact hacc w hw

/-- Last-wins lookup succeeds when the key occurs among the pairs. -/
theorem lastAssoc_isSome_aux (key : ℕ) (pairs : List (ℕ × ℕ)) :
    ∀ acc : Option ℕ, (key ∈ pairs.map Prod.fst ∨ ∃ w, acc = some w) →
      ∃ v, pairs.foldl (fun a p => if p.1 = key then some p.2 else a) acc = some v := by
  induction pairs with
  | nil =>
    rintro acc (h | ⟨w, hw⟩)
    · cases h
    · exact ⟨w, hw⟩
  | cons p rest ih =>
    rintro acc (h | ⟨w, hw⟩)
    · rcases List.mem_cons.mp h with heq | hmem
      · refine ih _ (Or.inr ⟨p.2, ?_⟩)
        simp [heq]
      · by_cases hk : p.1 = key
        · refine ih _ (Or.inr ⟨p.2, ?_⟩)
          simp [hk]
        · refine ih _ (Or.inl hmem)
    · by_cases hk : p.1 = key
      · refine ih _ (Or.inr ⟨p.2, ?_⟩)
        simp [hk]
      · refine ih _ (Or.inr ⟨w, ?_⟩)
        simp [hk, hw]

theorem lastAssoc_isSome (pairs : List (ℕ × ℕ)) (key : ℕ)
    (h : key ∈ pairs.map Prod.fst) : ∃ v, lastAssoc pairs key = some v :=
  lastAssoc_isSome_aux key pairs Option.none (Or.inl h)

/-- C9 (amended): with `truncate_first = true` the builder assigns every
usage batch its own local id (identity mapping) and its output does not
depend on the clock, so two runs over the same records are identical;
with `truncate_first = false` the identities come from a seed derived
from the current time modulo 10^6 seconds, so two runs whose timestamps
differ modulo 10^6 assign different identities to every batch (runs
exactly 10^6 seconds apart reuse the same seed — see the
counterexample); every batch gets an identity, and a usage line whose
batch id is absent from the mapping is silently skipped rather than
failing the command. -/
theorem build_import_sql_identity_modes_amended :
    (∀ (inv : List InventoryRow) (bs : List UsageBatch) (ls : List UsageLine) (n n' : ℕ),
        build_import_sql inv bs ls true n = build_import_sql inv bs ls true n')
      ∧ (∀ (n key v : ℕ) (bs : List UsageBatch),
          lastAssoc (batchIdPairs true n bs) key = some v → v = key)
      ∧ (∀ (n n' key v v' : ℕ) (bs : List UsageBatch),
          n % 1000000 ≠ n' % 1000000 →
          lastAssoc (batchIdPairs false n bs) key = some v →
          lastAssoc (batchIdPairs false n' bs) key = some v' → v ≠ v')
      ∧ (∀ (t : Bool) (n : ℕ) (bs : List UsageBatch) (b : UsageBatch), b ∈ bs →
          ∃ v, lastAssoc (batchIdPairs t n bs) b.local_id = some v)
      ∧ (∀ (inv : List InventoryRow) (bs : List UsageBatch) (t : Bool) (n : ℕ)
          (l : UsageLine) (ls : List UsageLine),
          lastAssoc (batchIdPairs t n bs) l.local_batch_id = Option.none →
          buildImportStatements inv bs (l :: ls) t n
            = buildImportStatements inv bs ls t n) := by
  refine ⟨?_, ?_, ?_, ?_, ?_⟩
  · intro inv bs ls n n'
    have hp : batchIdPairs true n bs = batchIdPairs true n' bs := by
      simp [batchIdPairs]
    simp only [build_import_sql, buildImportStatements, hp]
  · intro n key v bs h
    refine lastAssoc_id_aux key (batchIdPairs true n bs) ?_ Option.none (by intro w hw; cases hw) v h
    intro p hp
    simp only [batchIdPairs, if_true] at hp
    rcases List.mem_map.mp hp with ⟨b, _, rfl⟩
    rfl
  · intro n n' key v v' bs hne h1 h2
    have hform : ∀ m : ℕ, batchIdPairs false m bs
        = ((bs.enum.map (fun p => (p.2.local_id, p.1))).map
            (fun p => (p.1, appendSeed m + p.2))) := by
      intro m
      simp only [batchIdPairs, if_false, List.map_map]
      rfl
    rw [hform n, lastAssoc_map_shift] at h1
    rw [hform n', lastAssoc_map_shift] at h2
    rcases Option.map_eq_some'.mp h1 with ⟨i, hi, rfl⟩
    rcases Option.map_eq_some'.mp h2 with ⟨j, hj, rfl⟩
    rw [hi] at hj
    rcases Option.some_inj.mp hj with rfl
    simp only [appendSeed]
    omega
  · intro t n bs b hb
    have hkey : b.local_id ∈ (batchIdPairs t n bs).map Prod.fst := by
      cases t with
      | true =>
        simp only [batchIdPairs, if_true, List.map_map]
        exact List.mem_map.mpr ⟨b, hb, rfl⟩
      | false =>
        have hmm : (batchIdPairs false n bs).map Prod.fst
            = bs.enum.map (fun p => p.2.local_id) := by
          rw [show batchIdPairs false n bs
                = bs.enum.map (fun p => (p.2.local_id, appendSeed n + p.1)) from rfl,
              List.map_map]
          rfl
        rw [hmm]
        have hb' : b ∈ bs.enum.map Prod.snd := by
          rw [List.enum_map_snd]
          exact hb
        rcases List.mem_map.mp hb' with ⟨p, hp, hpb⟩
        exact List.mem_map.mpr ⟨p, hp, by rw [hpb]⟩
    exact lastAssoc_isSome (batchIdPairs t n bs) b.local_id hkey
  · intro inv bs t n l ls h
    simp only [buildImportStatements, List.filterMap_cons, h, Option.map_none']



set_option maxRecDepth 4000 in
/-- C9 counterexample: the claim says append-mode identities differ
between runs at different times, but the seed only depends on the
timestamp modulo 10^6 seconds: runs at times 0 and 10^6 produce the
very same output. -/
theorem build_import_sql_append_collision_cex :
    (0 : ℕ) ≠ 1000000
      ∧ build_import_sql [] [newBatchFromRow "S" "c" 1 3 (codeRow "A")] [] false 0
        = build_import_sql [] [newBatchFromRow "S" "c" 1 3 (codeRow "A")] [] false 1000000 := by
  constructor
  · decide
  · decide


/-- C8: a row whose requester-name cell matches the localized "customer"
header marker and whose product code and item name both normalize to
null leaves the reconstruction state untouched: it is never emitted as a
line and never opens or mutates a batch, wherever it stands in the
sheet. -/
theorem customer_header_row_inert (sheetName category : String) (s : ParseState)
    (rowIdx : ℕ) (r : Row12)
    (hreq : normalize_text r.c2 = some "ลูกค้า" ∨ normalize_text r.c2 = some "customer")
    (hcode : normalize_text r.c3 = Option.none)
    (hname : normalize_text r.c5 = Option.none) :
    usageStep sheetName category s rowIdx r = s := by
  have hrow : isCustomerHeaderRow r = true := by
    unfold isCustomerHeaderRow
    rcases hreq with h | h <;> simp [h, hcode, hname]
  unfold usageStep
  rw [if_pos hrow]

/-- C8 witness: a concrete "customer" header row, in a state with an
open batch, is skipped without any effect. -/
theorem customer_header_row_inert_witness :
    usageStep "S" "c"
        ⟨[], [], 2, some (newBatchFromRow "S" "c" 1 3 (codeRow "A"))⟩ 4
        (requesterRow "customer")
      = ⟨[], [], 2, some (newBatchFromRow "S" "c" 1 3 (codeRow "A"))⟩ :=
  customer_header_row_inert "S" "c" _ 4 (requesterRow "customer")
    (Or.inr (by decide)) (by decide) (by decide)

end StockImport
